import Mathlib

/-!
Verification development for the havelock reactive state library.

The repository snapshot carries only the public API documentation
(havelock.api.edn), the mocha test file for atoms/transactions/validators,
and usage examples (caching.ts); the engine implementation itself
(src/havelock.js, referenced by the build file) is not present. The
definitions below therefore model the engine from the specification's
data model and component design (spec sections 3, 4.1 to 4.5), and the
theorems check the spec's claims against that model. Scenario constants
mirror the test file's concrete scenarios.
-/

namespace Havelock

/-- Modelled from the spec: the dynamic JavaScript values the engine's
atoms and derivations hold (src/havelock.js is absent from the
repository). Numbers, strings, booleans, pair containers and `undefined`
suffice for every documented scenario. -/
inductive Val where
  | num (n : Int)
  | str (s : String)
  | bool (b : Bool)
  | pair (a b : Val)
  | undefined
  deriving DecidableEq

/-- Modelled from the spec: JavaScript truthiness, used by the
short-circuiting combinators `and`, `or`, `then` (spec section 4.2). -/
def truthy : Val → Bool
  | .num n => n != 0
  | .str s => s != ""
  | .bool b => b
  | .pair _ _ => true
  | .undefined => false

/-- Pointwise update of a committed-state map at one atom cell. -/
def update (s : Nat → Val) (i : Nat) (v : Val) : Nat → Val :=
  fun j => if j = i then v else s j

/-- Modelled from the spec: events observable while a derivable is
pull-evaluated — a read of an atom cell (recorded into the dependency
record by the tracking scope, spec section 4.2 and 9) and an invocation of
a derivation's compute function (labelled, so that a claim about a
compute function never being invoked is statable). -/
inductive REvent where
  | read (id : Nat)
  | compute (lbl : Nat)
  deriving DecidableEq

/-- Modelled from the spec: the derivable expressions the engine builds
(src/havelock.js is absent). `readAtom` dereferences an atom cell,
`map1`/`map2` are `derive` with a pure function, `deriv` marks a
derivation node with a label so its compute invocations are traceable,
and `and`/`or`/`isE` are the documented combinators
(Derivable::and / Derivable::or / Derivable::is). -/
inductive HExpr where
  | lit (v : Val)
  | readAtom (id : Nat)
  | map1 (f : Val → Val) (e : HExpr)
  | map2 (f : Val → Val → Val) (a b : HExpr)
  | deriv (lbl : Nat) (body : HExpr)
  | and (a b : HExpr)
  | or (a b : HExpr)
  | isE (a b : HExpr)

/-- Modelled from the spec: pull-evaluation of a derivable against a
committed-state map, returning the value together with the ordered trace
of reads and compute invocations. `and` evaluates its left operand and
touches the right operand only when the left value is truthy; `or`
dually; `isE` compares both operand values (spec sections 4.1, 4.2). -/
def eval : HExpr → (Nat → Val) → Val × List REvent
  | .lit v, _ => (v, [])
  | .readAtom i, s => (s i, [.read i])
  | .map1 f e, s =>
      let r := eval e s
      (f r.1, r.2)
  | .map2 f a b, s =>
      let ra := eval a s
      let rb := eval b s
      (f ra.1 rb.1, ra.2 ++ rb.2)
  | .deriv lbl body, s =>
      let r := eval body s
      (r.1, .compute lbl :: r.2)
  | .and a b, s =>
      let ra := eval a s
      if truthy ra.1 then
        let rb := eval b s
        (rb.1, ra.2 ++ rb.2)
      else ra
  | .or a b, s =>
      let ra := eval a s
      if truthy ra.1 then ra
      else
        let rb := eval b s
        (rb.1, ra.2 ++ rb.2)
  | .isE a b, s =>
      let ra := eval a s
      let rb := eval b s
      (.bool (decide (ra.1 = rb.1)), ra.2 ++ rb.2)

/-- Modelled from the spec: a transaction frame's pendingWrites, an
association list of atom cell and written value, most recent write first
(spec section 3, Transaction). -/
abbrev Frame := List (Nat × Val)

/-- First (most recent) pending write to cell `i` in a frame, if any. -/
def lookupW : Frame → Nat → Option Val
  | [], _ => none
  | (j, v) :: rest, i => if i = j then some v else lookupW rest i

/-- Modelled from the spec: reading an atom while transactions are active
observes the pendingWrites of the active frame (innermost first), falling
back to outer frames' pending writes, falling back to committed state
(spec sections 3 and 4.4). -/
def readTx : List Frame → (Nat → Val) → Nat → Val
  | [], s, i => s i
  | fr :: rest, s, i =>
      match lookupW fr i with
      | some v => v
      | none => readTx rest s i

/-- Merge a frame's pending writes into committed state, oldest write
first so the most recent write to each cell wins. -/
def applyFrame (fr : Frame) (s : Nat → Val) : Nat → Val :=
  fr.foldr (fun p acc => update acc p.1 p.2) s

/-- Modelled from the spec: the body run by `transact` as a sequence of
atom writes, calls to the frame's `abort` capability (which unwinds
immediately, so it ends the program), and nested `transact` calls
(spec section 4.4; the engine source is absent). -/
inductive Prog where
  | done
  | write (id : Nat) (v : Val) (k : Prog)
  | abortP
  | nest (inner : Prog) (k : Prog)

/-- Modelled from the spec: running a transaction body against the
current frame. A write pushes onto the frame's pendingWrites; `abort`
marks the frame aborted and unwinds; a nested `transact` runs its body in
a fresh child frame and, on normal return, merges the child's
pendingWrites into this frame (child writes shadowing older ones), while
on abort it discards only the child frame (spec section 4.4). -/
def runProg : Prog → Frame → Frame × Bool
  | .done, fr => (fr, false)
  | .write i v k, fr => runProg k ((i, v) :: fr)
  | .abortP, fr => (fr, true)
  | .nest inner k, fr =>
      let res := runProg inner []
      if res.2 then runProg k fr
      else runProg k (res.1 ++ fr)

/-- Modelled from the spec: an outermost `transact(fn)` call. On normal
return the frame's pendingWrites are merged into committed state and
propagation is notified once per distinct atom touched; on abort the
pendingWrites are discarded, committed state is untouched and no
propagation occurs (spec section 4.4). Returns the committed state after
the call and the list of atom cells notified to the propagation engine. -/
def transactTop (p : Prog) (s : Nat → Val) : (Nat → Val) × List Nat :=
  let res := runProg p []
  if res.2 then (s, [])
  else (applyFrame res.1 s, (res.1.map Prod.fst).dedup)

/-- Modelled from the spec: a validation failure raised synchronously
from set/swap/validate (spec section 7). -/
inductive HvError where
  | validation
  deriving DecidableEq

/-- Modelled from the spec: an Atom handle — an underlying cell plus the
active validator predicate (spec sections 3 and 4.5; the engine source is
absent). A freshly created atom accepts every value. -/
structure VAtom where
  cell : Nat
  validator : Val → Bool

/-- Atom factory: a fresh atom has no validator restriction. -/
def mkAtom (c : Nat) : VAtom := ⟨c, fun _ => true⟩

/-- Modelled from the spec: `withValidator(pred)` returns a new Atom
sharing the same underlying cell but with `pred` composed (logical AND)
with any existing validator (spec section 4.5). -/
def VAtom.withValidator (a : VAtom) (p : Val → Bool) : VAtom :=
  ⟨a.cell, fun v => a.validator v && p v⟩

/-- Modelled from the spec: `set(v)` applies the active validator to the
candidate value before committing. On rejection a ValidationError is
raised synchronously — modelled by the error component — with the
committed state unchanged and nothing notified to propagation; on
acceptance the write commits and the touched cell is propagated
(spec sections 4.5 and 7). -/
def VAtom.setA (s : Nat → Val) (a : VAtom) (v : Val) :
    (Nat → Val) × List Nat × Option HvError :=
  if a.validator v then (update s a.cell v, [a.cell], none)
  else (s, [], some .validation)

/-- Modelled from the spec: `swap(f)` sets the atom to `f` applied to its
current value (Atom::swap in the API documentation). -/
def VAtom.swapA (s : Nat → Val) (a : VAtom) (f : Val → Val) :
    (Nat → Val) × List Nat × Option HvError :=
  VAtom.setA s a (f (s a.cell))

/-- Modelled from the spec: `validate()` re-checks the active validator
against the Atom's current value on demand, raising ValidationError when
it fails (spec section 4.5). -/
def VAtom.validateA (s : Nat → Val) (a : VAtom) : Option HvError :=
  if a.validator (s a.cell) then none else some .validation

/-- Modelled from the spec: the Reaction lifecycle states
Created, Started, Stopped (spec section 4.3). -/
inductive RStatus where
  | created
  | started
  | stopped
  deriving DecidableEq

/-- Modelled from the spec: a Reaction — a source derivable, a lifecycle
state, the last value it saw, and (for the theorems) the log of values
its side-effecting callback has been invoked with, most recent first
(spec sections 3 and 4.3; the engine source is absent). -/
structure Reaction where
  source : HExpr
  status : RStatus
  lastSeen : Option Val
  log : List Val

/-- Modelled from the spec: the propagation pass reaching a reaction
after a commit. Only a Started reaction responds: it pull-evaluates its
source against the settled committed state and invokes its callback only
if the fresh value differs from `lastSeen` (spec section 4.1). -/
def notifyR (s : Nat → Val) (r : Reaction) : Reaction :=
  if r.status = .started then
    let v := (eval r.source s).1
    if r.lastSeen = some v then r
    else { r with lastSeen := some v, log := v :: r.log }
  else r

/-- Modelled from the spec: `force()` immediately pull-evaluates the
source and invokes the callback if the value differs from `lastSeen`,
regardless of lifecycle state (spec section 4.3). -/
def forceR (s : Nat → Val) (r : Reaction) : Reaction :=
  let v := (eval r.source s).1
  if r.lastSeen = some v then r
  else { r with lastSeen := some v, log := v :: r.log }

/-- Modelled from the spec: `start()` transitions to Started and arms
future change notification without invoking the callback
(spec section 4.3). -/
def startR (r : Reaction) : Reaction := { r with status := .started }

/-- Modelled from the spec: `stop()` transitions to Stopped and
deregisters from the dependency graph (spec section 4.3). -/
def stopR (r : Reaction) : Reaction := { r with status := .stopped }

/-- Modelled from the spec: an untransacted atom write — committed
immediately, then a synchronous propagation pass reaches the reaction
(spec sections 4.1 and 5). -/
def writeNotify (s : Nat → Val) (i : Nat) (v : Val) (r : Reaction) :
    (Nat → Val) × Reaction :=
  let s' := update s i v
  (s', notifyR s' r)

/-- Modelled from the spec: commit of an outermost `transact` with a
started reaction downstream — on normal return all pendingWrites are
merged into committed state and a single coalesced propagation pass runs
against the fully settled state; on abort nothing commits and no
propagation occurs (spec sections 4.1 and 4.4). -/
def transactReact (p : Prog) (s : Nat → Val) (r : Reaction) :
    (Nat → Val) × Reaction :=
  let res := runProg p []
  if res.2 then (s, r)
  else
    let s' := applyFrame res.1 s
    (s', notifyR s' r)

/-- Modelled from the spec: the state a derivation's cache is checked
against — committed atom values plus each atom's versionStamp
(spec sections 3 and 4.2). -/
structure TrackState where
  vals : Nat → Val
  stamps : Nat → Nat

/-- The atom cells read during an evaluation, in read order. -/
def readsOf (evs : List REvent) : List Nat :=
  evs.filterMap (fun ev => match ev with | .read i => some i | _ => none)

/-- Modelled from the spec: a derivation's cache entry — the cached value
plus the dependency record, the set of atoms actually read the last time
compute ran, each paired with its versionStamp at read time
(spec section 3). -/
structure DepRec where
  val : Val
  deps : List (Nat × Nat)
  deriving DecidableEq

/-- Every recorded dependency's current versionStamp equals the recorded
one (spec section 4.2). -/
def depsFresh (s : TrackState) (deps : List (Nat × Nat)) : Bool :=
  deps.all (fun p => s.stamps p.1 == p.2)

/-- Modelled from the spec: re-running compute inside a tracking scope,
recording every atom read into a fresh dependency record stamped at read
time (spec sections 4.2 and 9). -/
def recompute (e : HExpr) (s : TrackState) : DepRec :=
  let r := eval e s.vals
  ⟨r.1, (readsOf r.2).map (fun i => (i, s.stamps i))⟩

/-- Modelled from the spec: `get()` on a derivation — if cached and every
recorded dependency's versionStamp is unchanged, return the cached value
with zero recomputation; otherwise re-run compute in a tracking scope and
cache the result (spec section 4.2). The third component counts the
compute invocations this call performed. -/
def dGet (e : HExpr) (c : Option DepRec) (s : TrackState) :
    Val × DepRec × Nat :=
  match c with
  | some r => if depsFresh s r.deps then (r.val, r, 0)
              else ((recompute e s).val, recompute e s, 1)
  | none => ((recompute e s).val, recompute e s, 1)

/-- Modelled from the spec: a lens descriptor — a get/set pair encoding
how a lensed atom reads from and writes back to its parent
(spec section 3 and the Lens interface in the API documentation). -/
structure Lens where
  get : Val → Val
  set : Val → Val → Val

/-- Modelled from the spec: an atom-like handle — either a base atom cell
or a lensed view of a parent, which may itself be lensed, with no depth
limit (spec section 3, Lens). -/
inductive AtomLike where
  | base (cell : Nat)
  | lensed (parent : AtomLike) (l : Lens)

/-- Modelled from the spec: reading a lensed atom delegates to
`get(parent.get())` (spec section 3). -/
def aGet (s : Nat → Val) : AtomLike → Val
  | .base c => s c
  | .lensed p l => l.get (aGet s p)

/-- Modelled from the spec: writing a lensed atom delegates to
`parent.set(set(parent.get(), v))` (spec section 3). -/
def aSet (s : Nat → Val) : AtomLike → Val → Nat → Val
  | .base c, v => update s c v
  | .lensed p l, v => aSet s p (l.set (aGet s p) v)

/-- Every lens in the chain satisfies the set-get law
`get (set src v) = v` — the "valid get-set/set-get pair" the spec's lens
round-trip property assumes. -/
def lawful : AtomLike → Prop
  | .base _ => True
  | .lensed p l => (∀ src v, l.get (l.set src v) = v) ∧ lawful p

/-- Addition on numeric values, as used by the spec's glitch-freedom
scenario derivation `sum = x + y`. -/
def addV : Val → Val → Val
  | .num m, .num n => .num (m + n)
  | _, _ => .undefined

/-- Multiplication on numeric values, as used by the spec's
glitch-freedom scenario derivation `product = x * y`. -/
def mulV : Val → Val → Val
  | .num m, .num n => .num (m * n)
  | _, _ => .undefined

/-- Committed state of the glitch-freedom scenario: atom x (cell 0)
holds 1, atom y (cell 1) holds 2. -/
def xyS : Nat → Val :=
  fun i => if i = 0 then .num 1 else if i = 1 then .num 2 else .undefined

/-- The scenario derivation `sum = x + y`. -/
def sumE : HExpr := .deriv 0 (.map2 addV (.readAtom 0) (.readAtom 1))

/-- The scenario derivation `product = x * y`. -/
def prodE : HExpr := .deriv 1 (.map2 mulV (.readAtom 0) (.readAtom 1))

/-- The scenario derivation `sum.derive((s, p) => [s, p], product)`. -/
def pairE : HExpr := .deriv 2 (.map2 Val.pair sumE prodE)

/-- The scenario reaction on `pairE`, started and forced. -/
def glitchR : Reaction := forceR xyS ⟨pairE, .started, none, []⟩

/-- The scenario transaction body: `x.set(10); y.set(20)`. -/
def glitchProg : Prog := .write 0 (.num 10) (.write 1 (.num 20) .done)

/-- State and reaction after the scenario transaction commits. -/
def glitchOut : (Nat → Val) × Reaction := transactReact glitchProg xyS glitchR

/-- Committed state of the abort scenario: atom a (cell 0) holds "a". -/
def committedA : Nat → Val := fun i => if i = 0 then .str "a" else .undefined

/-- The abort scenario body: `a.set("b"); abort()`. -/
def abortProg : Prog := .write 0 (.str "b") .abortP

/-- The validator of the test scenario: strings shorter than 5. -/
def lenLt5 : Val → Bool :=
  fun v => match v with | .str s => decide (s.length < 5) | _ => false

/-- The test scenario atom `atom("x").withValidator(s => s.length < 5)`. -/
def aVal5 : VAtom := (mkAtom 0).withValidator lenLt5

/-- Committed state for the validator scenario: cell 0 holds "x". -/
def sX : Nat → Val := fun _ => Val.str "x"

/-- Committed state for the `is` scenario: a (cell 0) holds "a",
b (cell 1) holds "b". -/
def sAB : Nat → Val :=
  fun i => if i = 0 then .str "a" else if i = 1 then .str "b" else .undefined

/-- The `is` scenario derivable `a.is(b)`. -/
def isScn : HExpr := .isE (.readAtom 0) (.readAtom 1)

/-- Laziness scenario operand a: reads cell 0. -/
def aScn : HExpr := .readAtom 0

/-- Laziness scenario operand b: a derivation (labelled 7) reading
cell 1; its compute invocation would appear in the trace. -/
def bScn : HExpr := .deriv 7 (.readAtom 1)

/-- State in which cell 0 is falsy. -/
def sFalse : Nat → Val := fun _ => Val.bool false

/-- State in which cell 0 is truthy. -/
def sTrue : Nat → Val := fun _ => Val.bool true

/-- Concrete tracking state for the caching scenario. -/
def trackScn : TrackState := ⟨fun _ => Val.num 5, fun _ => 0⟩

/-- The identity lens: get is the identity, set replaces the parent
value by the child value. -/
def idLens : Lens := ⟨fun v => v, fun _ v => v⟩

/-- A two-deep composed lensed atom over cell 0. -/
def twoDeep : AtomLike := .lensed (.lensed (.base 0) idLens) idLens

/-- All-undefined committed state. -/
def sUndef : Nat → Val := fun _ => Val.undefined

/-- Committed state of the lifecycle scenario: cell 0 holds 0. -/
def s8 : Nat → Val := fun _ => Val.num 0

/-- Lifecycle scenario: a fresh reaction on atom cell 0, started. -/
def r8a : Reaction := startR ⟨.readAtom 0, .created, none, []⟩

/-- Lifecycle scenario: first write (to 1) while started. -/
def step8a : (Nat → Val) × Reaction := writeNotify s8 0 (.num 1) r8a

/-- Lifecycle scenario: the reaction stopped. -/
def r8b : Reaction := stopR step8a.2

/-- Lifecycle scenario: second write (to 2) while stopped. -/
def step8b : (Nat → Val) × Reaction := writeNotify step8a.1 0 (.num 2) r8b

/-- Lifecycle scenario: the reaction restarted. -/
def r8c : Reaction := startR step8b.2

/-- Lifecycle scenario: third write (to 3) after the restart. -/
def step8c : (Nat → Val) × Reaction := writeNotify step8b.1 0 (.num 3) r8c

/-- Inner transaction of the nested-abort read scenario:
`a.set("c"); abort()` run in a fresh frame. -/
def innerResC7 : Frame × Bool := runProg (.write 0 (.str "c") .abortP) []

/-- Helper: the dependency record produced by a recomputation is fresh in
the very state it was recorded in. -/
theorem depsFresh_recorded (e : HExpr) (s : TrackState) :
    depsFresh s (recompute e s).deps = true := by
  simp only [depsFresh, recompute]
  induction readsOf (eval e s.vals).2 with
  | nil => rfl
  | cons hd tl ih => simp [ih]

/-- Helper: the lens round-trip by induction over the chain of lenses,
assuming every lens in the chain satisfies the set-get law. -/
theorem lens_roundtrip_aux :
    ∀ (a : AtomLike) (s : Nat → Val) (v : Val),
      lawful a → aGet (aSet s a v) a = v := by
  intro a
  induction a with
  | base c => intro s v _; simp [aGet, aSet, update]
  | lensed p l ih =>
      intro s v hl
      obtain ⟨hlaw, hp⟩ := hl
      show l.get (aGet (aSet s p (l.set (aGet s p) v)) p) = v
      rw [ih _ _ hp]
      exact hlaw _ _

/-- C1: with atoms x = 1 and y = 2, derivations sum and product, and a
started, forced reaction on `sum.derive((s, p) => [s, p], product)`,
committing `transact(() => { x.set(10); y.set(20) })` makes the
reaction's callback run exactly once, observing [30, 200]; no partial
value such as [12, 2] or [12, 200] is ever observed. -/
theorem glitch_free_commit :
    glitchR.log = [Val.pair (.num 3) (.num 2)] ∧
    glitchOut.2.log = Val.pair (.num 30) (.num 200) :: glitchR.log ∧
    Val.pair (.num 12) (.num 2) ∉ glitchOut.2.log ∧
    Val.pair (.num 12) (.num 200) ∉ glitchOut.2.log := by
  refine ⟨by decide, by decide, by decide, by decide⟩

/-- C2: calling abort() inside transact unwinds immediately, the
committed value of the written atom is unchanged afterwards
(atom "a" set to "b" then aborted still reads "a"), no propagation occurs
for the discarded writes, and aborting a frame never discards pending
writes that sibling nested transactions already committed into the
parent frame before the abort. -/
theorem transact_abort (p inner k : Prog) (s : Nat → Val) (fr : Frame) :
    ((runProg p []).2 = true → transactTop p s = (s, [])) ∧
    ((runProg inner []).2 = true → runProg (.nest inner k) fr = runProg k fr) ∧
    (transactTop abortProg committedA).1 0 = .str "a" ∧
    (transactTop abortProg committedA).2 = [] := by
  refine ⟨?_, ?_, by decide, by decide⟩
  · intro h
    simp [transactTop, h]
  · intro h
    simp [runProg, h]

/-- Witness for C2 at concrete inputs: the abort scenario program leaves
committed state untouched with no propagation, and a nested aborting
frame leaves the parent frame unchanged. -/
theorem transact_abort_witness :
    transactTop abortProg committedA = (committedA, []) ∧
    runProg (Prog.nest Prog.abortP Prog.done) [(0, Val.str "b")] =
      runProg Prog.done [(0, Val.str "b")] :=
  ⟨(transact_abort abortProg Prog.abortP Prog.done committedA []).1 (by decide),
   (transact_abort abortProg Prog.abortP Prog.done committedA
      [(0, Val.str "b")]).2.1 (by decide)⟩

/-- C3: set and swap apply the active validator to the candidate value
before committing; a rejected candidate raises ValidationError with the
committed value unchanged and no propagation, an accepted one commits;
concretely, atom "x" with validator (length < 5) rejects "abcde" and
accepts "blah". -/
theorem validator_enforcement (s : Nat → Val) (a : VAtom) (v : Val)
    (f : Val → Val) :
    (a.validator v = false → VAtom.setA s a v = (s, [], some .validation)) ∧
    (a.validator v = true →
      VAtom.setA s a v = (update s a.cell v, [a.cell], none) ∧
      (VAtom.setA s a v).1 a.cell = v) ∧
    (VAtom.swapA s a f = VAtom.setA s a (f (s a.cell))) ∧
    (VAtom.setA sX aVal5 (.str "abcde")).2.2 = some .validation ∧
    (VAtom.setA sX aVal5 (.str "abcde")).1 0 = .str "x" ∧
    (VAtom.setA sX aVal5 (.str "abcde")).2.1 = [] ∧
    (VAtom.setA sX aVal5 (.str "blah")).2.2 = none ∧
    (VAtom.setA sX aVal5 (.str "blah")).1 0 = .str "blah" := by
  refine ⟨?_, ?_, rfl, by decide, by decide, by decide, by decide, by decide⟩
  · intro h
    simp [VAtom.setA, h]
  · intro h
    simp [VAtom.setA, h, update]

/-- Witness for C3 at concrete inputs: the rejected and accepted writes
of the test scenario, via the general conjuncts. -/
theorem validator_enforcement_witness :
    VAtom.setA sX aVal5 (.str "abcde") = (sX, [], some .validation) ∧
    (VAtom.setA sX aVal5 (.str "blah")).1 aVal5.cell = .str "blah" :=
  ⟨(validator_enforcement sX aVal5 (.str "abcde") id).1 (by decide),
   ((validator_enforcement sX aVal5 (.str "blah") id).2.1 (by decide)).2⟩

/-- C4: withValidator(pred) returns a new Atom sharing the same
underlying cell, whose active validator is the logical AND of pred and
the existing validator; a write through it commits exactly when the
candidate satisfies both, and validate() re-checks the composed validator
against the current value. -/
theorem withValidator_composes (a : VAtom) (p : Val → Bool)
    (s : Nat → Val) (v : Val) :
    (a.withValidator p).cell = a.cell ∧
    (a.withValidator p).validator v = (a.validator v && p v) ∧
    (VAtom.setA s (a.withValidator p) v).2.2 =
      (if a.validator v && p v then none else some .validation) ∧
    (VAtom.setA s (a.withValidator p) v).1 =
      (if a.validator v && p v then update s a.cell v else s) ∧
    VAtom.validateA s (a.withValidator p) =
      (if a.validator (s a.cell) && p (s a.cell)
       then none else some .validation) := by
  refine ⟨rfl, rfl, ?_, ?_, ?_⟩
  · cases h : a.validator v && p v <;>
      simp [VAtom.setA, VAtom.withValidator, h]
  · cases h : a.validator v && p v <;>
      simp [VAtom.setA, VAtom.withValidator, h]
  · cases h : a.validator (s a.cell) && p (s a.cell) <;>
      simp [VAtom.validateA, VAtom.withValidator, h]

/-- C5: a.and(b) does not touch b when a's current value is falsy — the
result is exactly a's value and trace, so b's compute function is never
invoked and no dependency on b's reads is recorded; b is read exactly
when a's current value is truthy, on each (re-)evaluation. -/
theorem and_short_circuit (a b : HExpr) (s : Nat → Val) :
    (truthy (eval a s).1 = false → eval (HExpr.and a b) s = eval a s) ∧
    (truthy (eval a s).1 = true →
      eval (HExpr.and a b) s =
        ((eval b s).1, (eval a s).2 ++ (eval b s).2)) := by
  constructor
  · intro h
    simp [eval, h]
  · intro h
    simp [eval, h]

/-- Witness for C5 at concrete inputs: with a falsy operand the
derivation b (labelled 7) contributes nothing to the evaluation, and
with a truthy operand it is read. -/
theorem and_short_circuit_witness :
    eval (HExpr.and aScn bScn) sFalse = eval aScn sFalse ∧
    eval (HExpr.and aScn bScn) sTrue =
      ((eval bScn sTrue).1, (eval aScn sTrue).2 ++ (eval bScn sTrue).2) :=
  ⟨(and_short_circuit aScn bScn sFalse).1 (by decide),
   (and_short_circuit aScn bScn sTrue).2 (by decide)⟩

/-- C6: a derivation's get() recomputes a fresh derivation exactly once;
a second get() whose recorded dependencies all carry unchanged
versionStamps returns the cached value with zero compute invocations. -/
theorem derivation_caching (e : HExpr) (s s' : TrackState)
    (h : depsFresh s' (dGet e none s).2.1.deps = true) :
    dGet e (some (dGet e none s).2.1) s' =
      ((dGet e none s).1, (dGet e none s).2.1, 0) ∧
    (dGet e none s).2.2 = 1 := by
  refine ⟨?_, rfl⟩
  simp only [dGet] at h ⊢
  simp [h]

/-- Witness for C6 at concrete inputs: two consecutive gets on a fresh
derivation reading cell 0, in an unchanged state. -/
theorem derivation_caching_witness :
    dGet (HExpr.readAtom 0)
        (some (dGet (HExpr.readAtom 0) none trackScn).2.1) trackScn =
      ((dGet (HExpr.readAtom 0) none trackScn).1,
       (dGet (HExpr.readAtom 0) none trackScn).2.1, 0) ∧
    (dGet (HExpr.readAtom 0) none trackScn).2.2 = 1 :=
  derivation_caching (HExpr.readAtom 0) trackScn trackScn (by decide)

/-- C7: a read during active transactions returns the most recent
pending write in the innermost frame that wrote the atom, falling back to
outer frames and then committed state; after an inner frame that wrote
"c" aborts, the outer read sees the outer frame's pending "b" again,
never the pre-transaction committed "a". -/
theorem txn_read_visibility (fr : Frame) (rest : List Frame)
    (s : Nat → Val) (i : Nat) (v : Val) :
    readTx (((i, v) :: fr) :: rest) s i = v ∧
    (lookupW fr i = some v → readTx (fr :: rest) s i = v) ∧
    (lookupW fr i = none → readTx (fr :: rest) s i = readTx rest s i) ∧
    readTx [] s i = s i ∧
    readTx [[(0, Val.str "b")]] committedA 0 = .str "b" ∧
    readTx [innerResC7.1, [(0, Val.str "b")]] committedA 0 = .str "c" ∧
    (runProg (.nest (.write 0 (Val.str "c") .abortP) .done)
        [(0, Val.str "b")]).1 = [(0, Val.str "b")] ∧
    readTx [[(0, Val.str "b")]] committedA 0 ≠ committedA 0 := by
  refine ⟨?_, ?_, ?_, rfl, by decide, by decide, by decide, by decide⟩
  · simp [readTx, lookupW]
  · intro h
    simp [readTx, h]
  · intro h
    simp [readTx, h]

/-- Witness for C7 at concrete inputs: a frame holding a write to cell 5
serves that value, and a cell it did not write falls through to the next
scope. -/
theorem txn_read_visibility_witness :
    readTx [[(5, Val.num 1)]] committedA 5 = Val.num 1 ∧
    readTx [[(5, Val.num 1)]] committedA 9 = readTx [] committedA 9 :=
  ⟨(txn_read_visibility [(5, Val.num 1)] [] committedA 5 (Val.num 1)).2.1
      (by decide),
   (txn_read_visibility [(5, Val.num 1)] [] committedA 9 (Val.num 1)).2.2.1
      (by decide)⟩

/-- C8: the reaction's side effect fires only while Started — for every
reaction not in the Started state, no atom write changes it at all (its
callback never runs), and start() itself never invokes the callback;
concretely, a write while started fires it, a write after stop() does
not, restarting does not itself fire it, and the next write after the
restart fires it with the latest value; the change missed while stopped
(value 2) is never observed. -/
theorem reaction_lifecycle_gates (s : Nat → Val) (r : Reaction) (i : Nat)
    (v : Val) :
    (r.status ≠ .started → (writeNotify s i v r).2 = r) ∧
    (startR r).log = r.log ∧
    step8a.2.log = [Val.num 1] ∧
    step8b.2.log = [Val.num 1] ∧
    r8c.log = [Val.num 1] ∧
    step8c.2.log = [Val.num 3, Val.num 1] ∧
    Val.num 2 ∉ step8c.2.log := by
  refine ⟨?_, rfl, by decide, by decide, by decide, by decide, by decide⟩
  intro h
  simp [writeNotify, notifyR, h]

/-- Witness for C8 at concrete inputs: the stopped reaction of the
lifecycle scenario is untouched by the write it would otherwise have
observed. -/
theorem reaction_lifecycle_gates_witness :
    (writeNotify step8a.1 0 (Val.num 2) r8b).2 = r8b :=
  (reaction_lifecycle_gates step8a.1 r8b 0 (Val.num 2)).1 (by decide)

/-- C9: reading a lensed atom delegates to get(parent.get()), writing
delegates to parent.set(set(parent.get(), v)), and for every chain of
lenses whose get/set pairs satisfy the set-get law, set(v) followed by
get() returns v at any composition depth. -/
theorem lens_roundtrip (a : AtomLike) (s : Nat → Val) (v : Val)
    (p : AtomLike) (l : Lens) :
    aGet s (.lensed p l) = l.get (aGet s p) ∧
    aSet s (.lensed p l) v = aSet s p (l.set (aGet s p) v) ∧
    (lawful a → aGet (aSet s a v) a = v) :=
  ⟨rfl, rfl, fun h => lens_roundtrip_aux a s v h⟩

/-- Witness for C9 at concrete inputs: a two-deep composition of the
identity lens over cell 0 round-trips the value "v". -/
theorem lens_roundtrip_witness :
    lawful twoDeep ∧
    aGet (aSet sUndef twoDeep (Val.str "v")) twoDeep = Val.str "v" := by
  have hl : lawful twoDeep := ⟨fun _ _ => rfl, fun _ _ => rfl, trivial⟩
  exact ⟨hl,
    (lens_roundtrip twoDeep sUndef (Val.str "v") (.base 0) idLens).2.2 hl⟩

/-- C10: a.is(b) is a derivable whose current value is the boolean of
whether a's and b's current values are equal, re-evaluated against the
current state: with a = "a" and b = "b" it reads false, and after
b.set("a") it reads true. -/
theorem is_tracks_equality (a b : HExpr) (s : Nat → Val) :
    (eval (HExpr.isE a b) s).1 =
      .bool (decide ((eval a s).1 = (eval b s).1)) ∧
    (eval isScn sAB).1 = .bool false ∧
    (eval isScn (update sAB 1 (.str "a"))).1 = .bool true := by
  refine ⟨?_, by decide, by decide⟩
  simp [eval]

end Havelock
